import Mathlib

/-!
# Verification of the GraKeL `subtree_wl` kernel core

Shallow embedding of `src/grakel/kernels/subtree_wl.py` (class `subtree_wl`):
the inverted-label-dictionary graph summary, the `pairwise_operation`
similarity score and the `parse_input` validation routine, together with
theorems settling the specification claims about them.

Labels are modelled as `String` and node identifiers as `Nat`.  A Python
dictionary mapping labels to bucket lists is modelled as an association list
with (as in Python dicts) pairwise distinct keys; well-formedness of a
summary additionally requires the spec's invariants that every node lies in
exactly one bucket and buckets are nonempty.
-/

namespace GrakelWL

/-- A node-label mapping (Python dict node id -> label), as produced by
`get_labels` or given as the second member of an input tuple. -/
abbrev LabelMap := List (Nat × String)

/-- An inverted label dictionary: label -> list of nodes carrying it.
This is the per-graph summary type `subtree_wl` stores in `self.X`. -/
structure InvDict where
  entries : List (String × List Nat)
deriving DecidableEq

/-- Python `d[k]` / `k in d`: first (and, for genuine dicts, only) binding. -/
def InvDict.lookup (d : InvDict) (k : String) : Option (List Nat) :=
  (d.entries.find? fun p => p.1 == k).map Prod.snd

/-- The key list of the dictionary. -/
def InvDict.keys (d : InvDict) : List String := d.entries.map Prod.fst

/-- Python `k in d`. -/
def InvDict.hasKey (d : InvDict) (k : String) : Bool := (d.lookup k).isSome

/-- Bucket of `k`, empty when `k` is absent (the code only reads present keys). -/
def InvDict.getD (d : InvDict) (k : String) : List Nat := (d.lookup k).getD []

/-- Python `len(d)`: number of keys. -/
def InvDict.size (d : InvDict) : Nat := d.entries.length

/-- All nodes appearing in some bucket. -/
def InvDict.nodes (d : InvDict) : List Nat := d.entries.flatMap Prod.snd

/-- `|d[k]|`, with `0` for an absent key. -/
def sizeAt (d : InvDict) (k : String) : Nat := (d.getD k).length

/-- The set of keys as a `Finset`. -/
def InvDict.keyFinset (d : InvDict) : Finset String := d.keys.toFinset

/-- Well-formedness of a summary, per the spec's invariants for the inverted
label dictionary: keys are distinct (a Python dict guarantee), every node
appears in exactly one bucket, and no bucket is empty. -/
def InvDict.wf (d : InvDict) : Prop :=
  d.keys.Nodup ∧ d.nodes.Nodup ∧ ∀ p ∈ d.entries, p.2 ≠ []

instance (d : InvDict) : Decidable d.wf := by
  unfold InvDict.wf; infer_instance

/-- `sum(len(ls[x])*len(lb[x]) for x in ls if x in lb)`: the generator-sum in
`subtree_wl.pairwise_operation`, iterating the keys of `ls`. -/
def score_over (ls lb : InvDict) : Nat :=
  ((ls.keys.filter fun x => lb.hasKey x).map
    fun x => (ls.getD x).length * (lb.getD x).length).sum

/-- `subtree_wl.pairwise_operation`: pick the smaller dictionary as the
iteration side, then take the generator sum. -/
def pairwise_operation (lx ly : InvDict) : Nat :=
  if lx.size < ly.size then score_over lx ly else score_over ly lx

/-- Reference value: the sum, over labels present in both dictionaries, of
the product of the two bucket sizes. -/
def kernelSum (a b : InvDict) : Nat :=
  ∑ k ∈ a.keyFinset ∩ b.keyFinset, sizeAt a k * sizeAt b k

/-- The `(label, node)` occurrences of a summary; for a well-formed summary
these are exactly the graph's nodes, each tagged with its label. -/
def labeledNodes (d : InvDict) : List (String × Nat) :=
  d.entries.flatMap fun p => p.2.map fun v => (p.1, v)

/-- Reference double sum `Σ_{v ∈ V₁} Σ_{u ∈ V₂} δ(l(v), l(u))`: the number of
node pairs, one node from each graph, whose labels are equal. -/
def doubleSum (a b : InvDict) : Nat :=
  ((labeledNodes a).map
    fun pa => (labeledNodes b).countP fun pb => pb.1 == pa.1).sum

/-- The spec's WL-subtree self-similarity formula `Σ_label |a[label]|²`,
summed over the (distinct) labels of the dictionary. -/
def selfSquareSum (a : InvDict) : Nat :=
  (a.entries.map fun p => p.2.length * p.2.length).sum

/- ### The input parser of `subtree_wl.parse_input` -/

/-- Modelled from the spec: `inv_dict` (grakel.tools) is not under `src/`;
the spec says the node-label mapping is "inverted into the GraphSummary
form: group all node identifiers by their label value".  `addInv` appends
node `v` to the bucket of label `l`, creating the bucket at the end when
the label is new (Python dict insertion order). -/
def addInv (es : List (String × List Nat)) (v : Nat) (l : String) :
    List (String × List Nat) :=
  match es with
  | [] => [(l, [v])]
  | (k, vs) :: t =>
    if k = l then (k, vs ++ [v]) :: t else (k, vs) :: addInv t v l

/-- Modelled from the spec: invert a node-label mapping, grouping all node
identifiers by their label value. -/
def inv_dict (m : LabelMap) : InvDict :=
  ⟨m.foldl (fun es p => addInv es p.1 p.2) []⟩

/-- One element of the input iterable `X` given to `parse_input`.  The code
dispatches on `isinstance(x, collections.Iterable)` and `type(x) is Graph`:

* `iter items` is an iterable element; `parse_input` reads only its length
  and (for length 2 or 3) its second item `x[1]`, the node-label dict, so
  the items are modelled by the label map each would contribute there (the
  graph-structure and edge-label slots are never inspected).
* `graph labels exact` is a non-iterable `Graph`-instance; `labels` is what
  `get_labels(purpose="any")` returns (the `Graph` class itself is not
  under `src/` and is modelled from the spec's "get labels for
  purpose=any" capability), and `exact` records whether `type(x) is Graph`
  holds exactly (`false` for an instance of a proper subclass).
* `other` is any element that is neither iterable nor a `Graph` instance.
-/
inductive InputElem where
  | iter (items : List LabelMap)
  | graph (labels : LabelMap) (exact : Bool)
  | other
deriving DecidableEq

/-- A raised Python exception, carrying the message it was built with. -/
inductive PyError where
  | valueError (msg : String)
deriving DecidableEq

/-- The message of the `ValueError` raised for a malformed element
(transcribed from the source; it is one fixed string). -/
def malformedMsg : String :=
  "each element of X must be either a graph object or a list with at " ++
    "least a graph like object and node labels dict \n"

/-- The message of the `ValueError` raised when the parsed input is empty. -/
def emptyMsg : String := "parsed input is empty"

/-- The warning emitted when the element at index `i` is an empty iterable
(transcribed from the source). -/
def warnMsg (i : Nat) : String :=
  "Ignoring empty element on index: " ++ toString i

/-- The element loop of `subtree_wl.parse_input`: `i` is the enumeration
index, `ws` the warnings emitted so far, `acc` the summaries collected so
far (`Xp`).  Mirrors the source: an iterable of length 0 warns and is
skipped, one of length 2 or 3 contributes `inv_dict(x[1])`, an exact
`Graph` instance contributes `inv_dict(x.get_labels(purpose="any"))`, and
anything else raises the malformed-element `ValueError`; at the end an
empty `Xp` raises the empty-input `ValueError`. -/
def parseGo : List InputElem → Nat → List String → List InvDict →
    Except PyError (List String × List InvDict)
  | [], _, ws, acc =>
    if acc.length = 0 then .error (.valueError emptyMsg) else .ok (ws, acc)
  | x :: rest, i, ws, acc =>
    match x with
    | .iter items =>
      if items.length = 0 ∨ items.length = 2 ∨ items.length = 3 then
        if items.length = 0 then
          parseGo rest (i + 1) (ws ++ [warnMsg i]) acc
        else
          parseGo rest (i + 1) ws (acc ++ [inv_dict (items.getD 1 [])])
      else .error (.valueError malformedMsg)
    | .graph labels exact =>
      if exact then parseGo rest (i + 1) ws (acc ++ [inv_dict labels])
      else .error (.valueError malformedMsg)
    | .other => .error (.valueError malformedMsg)

/-- `subtree_wl.parse_input` on an iterable input `X` (a non-iterable `X`
raises before the loop and is outside this model, which takes a list).  On
success it returns the emitted warnings together with the parsed list of
summaries. -/
def parse_input (X : List InputElem) :
    Except PyError (List String × List InvDict) :=
  parseGo X 0 [] []

/-- An element skipped with a warning: an iterable of length 0. -/
def isEmptyElem : InputElem → Bool
  | .iter items => items.length == 0
  | _ => false

/-- An element that contributes a summary: an iterable of length 2 or 3,
or an exact `Graph` instance. -/
def isGoodElem : InputElem → Bool
  | .iter items => items.length == 2 || items.length == 3
  | .graph _ exact => exact
  | .other => false

/-- An element that raises the malformed-element `ValueError`. -/
def isBadElem (x : InputElem) : Bool := !(isEmptyElem x || isGoodElem x)

/-- The summary contributed by an accepted element. -/
def summaryOf : InputElem → InvDict
  | .iter items => inv_dict (items.getD 1 [])
  | .graph labels _ => inv_dict labels
  | .other => ⟨[]⟩

/-- The indices (offset by `i`) of the empty-iterable elements, in order:
the indices named by the emitted warnings. -/
def emptyIdxFrom : List InputElem → Nat → List Nat
  | [], _ => []
  | x :: t, i =>
    if isEmptyElem x then i :: emptyIdxFrom t (i + 1)
    else emptyIdxFrom t (i + 1)

/- ### The fit/transform engine (spec-modelled) and concrete inputs -/

/-- Modelled from the spec: the `GramMatrixEngine` (`grakel.kernels.kernel`)
is not under `src/`; per the spec, `fit_transform(X)` parses `X` and
returns the full symmetric matrix of pairwise scores among the parsed
summaries, entry `(i, j)` being `score(summary_i, summary_j)`. -/
def fit_transform (ds : List InvDict) :
    Matrix (Fin ds.length) (Fin ds.length) Nat :=
  Matrix.of fun i j => pairwise_operation (ds.get i) (ds.get j)

/-- The spec's worked example `{'x': [0, 1], 'y': [2]}`. -/
def exA : InvDict := ⟨[("x", [0, 1]), ("y", [2])]⟩

/-- The spec's worked example `{'x': [0], 'z': [1]}`. -/
def exB : InvDict := ⟨[("x", [0]), ("z", [1])]⟩

/-- A summary with `exA`'s key set and bucket sizes but other node ids. -/
def exA2 : InvDict := ⟨[("x", [5, 7]), ("y", [9])]⟩

/-- A summary with `exB`'s key set and bucket sizes but other node ids. -/
def exB2 : InvDict := ⟨[("x", [4]), ("z", [6])]⟩

/-- The input collection of the spec's worked example, as two raw tuples
`(structure, node_labels)`; the structure slot is never inspected. -/
def repX : List InputElem :=
  [.iter [[], [(0, "x"), (1, "x"), (2, "y")]],
   .iter [[], [(0, "x"), (1, "z")]]]

/-- The Gram matrix of the worked-example collection, over `ℝ`. -/
def repK : Matrix (Fin 2) (Fin 2) ℝ :=
  (fit_transform [exA, exB]).map fun n => (n : ℝ)

/- ### Basic lemmas about lookup and keys -/

theorem hasKey_iff_mem_keys (d : InvDict) (k : String) :
    d.hasKey k = true ↔ k ∈ d.keys := by
  simp [InvDict.hasKey, InvDict.lookup, InvDict.keys, List.find?_isSome,
    List.mem_map]

theorem find?_eq_of_nodup_keys :
    ∀ {es : List (String × List Nat)}, (es.map Prod.fst).Nodup →
      ∀ {p : String × List Nat}, p ∈ es →
        es.find? (fun q => q.1 == p.1) = some p := by
  intro es
  induction es with
  | nil => intro _ p hp; cases hp
  | cons q t ih =>
    intro hd p hp
    simp only [List.map_cons, List.nodup_cons] at hd
    rcases List.mem_cons.mp hp with hp | hp
    · subst hp
      exact List.find?_cons_of_pos _ (by simp)
    · have hne : (q.1 == p.1) = false := by
        rcases h : (q.1 == p.1) with _ | _
        · rfl
        · exact absurd (beq_iff_eq.mp h ▸ List.mem_map_of_mem Prod.fst hp)
            hd.1
      rw [List.find?_cons_of_neg _ (by simp [hne]), ih hd.2 hp]

theorem lookup_of_mem {d : InvDict} (hd : d.keys.Nodup)
    {p : String × List Nat} (hp : p ∈ d.entries) :
    d.lookup p.1 = some p.2 := by
  simp only [InvDict.keys] at hd
  simp [InvDict.lookup, find?_eq_of_nodup_keys hd hp]

theorem sizeAt_of_mem {d : InvDict} (hd : d.keys.Nodup)
    {p : String × List Nat} (hp : p ∈ d.entries) :
    sizeAt d p.1 = p.2.length := by
  simp [sizeAt, InvDict.getD, lookup_of_mem hd hp]

theorem lookup_eq_none_of_not_mem {d : InvDict} {k : String}
    (hk : k ∉ d.keys) : d.lookup k = none := by
  rcases h : d.lookup k with _ | v
  · rfl
  · exact absurd ((hasKey_iff_mem_keys d k).mp (by simp [InvDict.hasKey, h]))
      hk

theorem sizeAt_of_not_mem {d : InvDict} {k : String} (hk : k ∉ d.keys) :
    sizeAt d k = 0 := by
  simp [sizeAt, InvDict.getD, lookup_eq_none_of_not_mem hk]

/- ### The generator sum as a `Finset` sum over the shared keys -/

theorem score_over_eq_kernelSum {a : InvDict} (b : InvDict)
    (ha : a.keys.Nodup) : score_over a b = kernelSum a b := by
  have hnodup : (a.keys.filter fun x => b.hasKey x).Nodup := ha.filter _
  have hset : (a.keys.filter fun x => b.hasKey x).toFinset
      = a.keyFinset ∩ b.keyFinset := by
    ext k
    simp [InvDict.keyFinset, List.mem_filter, hasKey_iff_mem_keys]
  calc score_over a b
      = ((a.keys.filter fun x => b.hasKey x).map
          fun k => sizeAt a k * sizeAt b k).sum := rfl
    _ = ∑ k ∈ (a.keys.filter fun x => b.hasKey x).toFinset,
          sizeAt a k * sizeAt b k := (List.sum_toFinset _ hnodup).symm
    _ = kernelSum a b := by rw [hset]; rfl

theorem kernelSum_comm (a b : InvDict) : kernelSum a b = kernelSum b a := by
  unfold kernelSum
  rw [Finset.inter_comm]
  exact Finset.sum_congr rfl fun k _ => Nat.mul_comm _ _

theorem pairwise_eq_kernelSum {a b : InvDict} (ha : a.keys.Nodup)
    (hb : b.keys.Nodup) : pairwise_operation a b = kernelSum a b := by
  unfold pairwise_operation
  split
  · exact score_over_eq_kernelSum b ha
  · rw [score_over_eq_kernelSum a hb, kernelSum_comm]

/- ### The double sum over node pairs -/

theorem countP_labeledNodes (es : List (String × List Nat)) (l : String) :
    ((es.flatMap fun p => p.2.map fun v => (p.1, v)).countP
        fun pb => pb.1 == l)
      = (es.map fun p => if p.1 = l then p.2.length else 0).sum := by
  induction es with
  | nil => simp
  | cons q t ih =>
    simp only [List.flatMap_cons, List.countP_append, List.map_cons,
      List.sum_cons, ih]
    congr 1
    rw [List.countP_map]
    by_cases h : q.1 = l
    · simp [h, Function.comp_def]
    · simp [h, Function.comp_def]

theorem sum_if_eq_sizeAt :
    ∀ (es : List (String × List Nat)), (es.map Prod.fst).Nodup →
      ∀ l, (es.map fun p => if p.1 = l then p.2.length else 0).sum
        = sizeAt ⟨es⟩ l := by
  intro es
  induction es with
  | nil =>
    intro _ l
    simp [sizeAt, InvDict.getD, InvDict.lookup]
  | cons q t ih =>
    intro hd l
    simp only [List.map_cons, List.nodup_cons] at hd
    by_cases h : q.1 = l
    · have htail :
          (t.map fun p => if p.1 = l then p.2.length else 0).sum = 0 := by
        apply List.sum_eq_zero
        intro x hx
        rcases List.mem_map.mp hx with ⟨p, hp, rfl⟩
        have : p.1 ≠ l := fun hpl =>
          hd.1 (h ▸ hpl ▸ List.mem_map_of_mem Prod.fst hp)
        simp [this]
      have hfind : List.find? (fun p => p.1 == l) (q :: t) = some q :=
        List.find?_cons_of_pos _ (by simp [h])
      have hhead : sizeAt ⟨q :: t⟩ l = q.2.length := by
        simp [sizeAt, InvDict.getD, InvDict.lookup, hfind]
      simp [hhead, htail, h]
    · have hfind : List.find? (fun p => p.1 == l) (q :: t)
          = List.find? (fun p => p.1 == l) t :=
        List.find?_cons_of_neg _ (by simp [h])
      have hhead : sizeAt ⟨q :: t⟩ l = sizeAt ⟨t⟩ l := by
        simp [sizeAt, InvDict.getD, InvDict.lookup, hfind]
      simp [hhead, h, ih hd.2 l]

theorem countP_labeled_eq_sizeAt {b : InvDict} (hb : b.keys.Nodup)
    (l : String) :
    ((labeledNodes b).countP fun pb => pb.1 == l) = sizeAt b l := by
  rw [labeledNodes, countP_labeledNodes]
  exact sum_if_eq_sizeAt b.entries hb l

theorem doubleSum_eq_entriesSum {a b : InvDict} (hb : b.keys.Nodup) :
    doubleSum a b
      = (a.entries.map fun p => p.2.length * sizeAt b p.1).sum := by
  rcases a with ⟨es⟩
  show (((es.flatMap fun p => p.2.map fun v => (p.1, v)).map
      fun pa => (labeledNodes b).countP fun pb => pb.1 == pa.1).sum)
    = (es.map fun p => p.2.length * sizeAt b p.1).sum
  induction es with
  | nil => simp
  | cons q t ih =>
    simp only [List.flatMap_cons, List.map_append, List.sum_append,
      List.map_cons, List.sum_cons, ih]
    congr 1
    rw [List.map_map]
    have hconst :
        ((fun pa : String × Nat =>
            (labeledNodes b).countP fun pb => pb.1 == pa.1) ∘
          fun v => (q.1, v))
          = fun _ : Nat => (labeledNodes b).countP fun pb => pb.1 == q.1 := by
      funext v; rfl
    rw [hconst, List.map_const', List.sum_replicate, smul_eq_mul,
      countP_labeled_eq_sizeAt hb]

theorem entriesSum_eq_keySum {a : InvDict} (b : InvDict)
    (ha : a.keys.Nodup) :
    (a.entries.map fun p => p.2.length * sizeAt b p.1).sum
      = ∑ k ∈ a.keyFinset, sizeAt a k * sizeAt b k := by
  have h1 : a.entries.map (fun p => p.2.length * sizeAt b p.1)
      = a.entries.map fun p => sizeAt a p.1 * sizeAt b p.1 :=
    List.map_congr_left fun p hp => by rw [sizeAt_of_mem ha hp]
  have h2 : a.keys.map (fun k => sizeAt a k * sizeAt b k)
      = a.entries.map fun p => sizeAt a p.1 * sizeAt b p.1 := by
    rw [InvDict.keys, List.map_map]; rfl
  rw [h1, ← h2, InvDict.keyFinset, List.sum_toFinset _ ha]

theorem keySum_eq_kernelSum (a b : InvDict) :
    (∑ k ∈ a.keyFinset, sizeAt a k * sizeAt b k) = kernelSum a b := by
  refine (Finset.sum_subset Finset.inter_subset_left fun k hk hk2 => ?_).symm
  have : k ∉ b.keys := by
    intro hkb
    exact hk2 (Finset.mem_inter.mpr ⟨hk, by
      simpa [InvDict.keyFinset] using hkb⟩)
  rw [sizeAt_of_not_mem this, Nat.mul_zero]

theorem doubleSum_eq_kernelSum {a b : InvDict} (ha : a.keys.Nodup)
    (hb : b.keys.Nodup) : doubleSum a b = kernelSum a b := by
  rw [doubleSum_eq_entriesSum hb, entriesSum_eq_keySum b ha,
    keySum_eq_kernelSum]

/- ### Behaviour of the parse loop -/

theorem isGoodElem_eq_false_of_empty {x : InputElem}
    (h : isEmptyElem x = true) : isGoodElem x = false := by
  cases x with
  | iter items =>
    simp only [isEmptyElem, beq_iff_eq] at h
    simp [isGoodElem, h]
  | graph labels exact => simp [isEmptyElem] at h
  | other => simp [isEmptyElem] at h

theorem parseGo_ok :
    ∀ (X : List InputElem) (i : Nat) (ws : List String)
      (acc : List InvDict), (∀ x ∈ X, isBadElem x = false) →
      parseGo X i ws acc =
        if (acc ++ (X.filter isGoodElem).map summaryOf).length = 0 then
          .error (.valueError emptyMsg)
        else
          .ok (ws ++ (emptyIdxFrom X i).map warnMsg,
            acc ++ (X.filter isGoodElem).map summaryOf) := by
  intro X
  induction X with
  | nil =>
    intro i ws acc _
    simp [parseGo, emptyIdxFrom]
  | cons x t ih =>
    intro i ws acc h
    have hx : isBadElem x = false := h x (List.mem_cons_self x t)
    have ht : ∀ y ∈ t, isBadElem y = false := fun y hy =>
      h y (List.mem_cons_of_mem x hy)
    cases x with
    | iter items =>
      by_cases h0 : items.length = 0
      · have hgood : isGoodElem (.iter items) = false := by
          simp [isGoodElem, h0]
        have hstep : parseGo (InputElem.iter items :: t) i ws acc
            = parseGo t (i + 1) (ws ++ [warnMsg i]) acc := by
          simp [parseGo, h0]
        rw [hstep, ih (i + 1) (ws ++ [warnMsg i]) acc ht]
        simp [List.filter_cons, hgood, emptyIdxFrom, isEmptyElem, h0,
          List.append_assoc]
      · have h23 : items.length = 2 ∨ items.length = 3 := by
          simp [isBadElem, isEmptyElem, isGoodElem, h0] at hx
          tauto
        have hgood : isGoodElem (.iter items) = true := by
          simp [isGoodElem]
          tauto
        have hstep : parseGo (InputElem.iter items :: t) i ws acc
            = parseGo t (i + 1) ws
                (acc ++ [inv_dict (items.getD 1 [])]) := by
          rcases h23 with h2 | h3
          · simp [parseGo, h2]
          · simp [parseGo, h3]
        rw [hstep, ih (i + 1) ws (acc ++ [inv_dict (items.getD 1 [])]) ht]
        simp [List.filter_cons, hgood, emptyIdxFrom, isEmptyElem, h0,
          summaryOf, List.append_assoc]
    | graph labels exact =>
      have he : exact = true := by
        simpa [isBadElem, isEmptyElem, isGoodElem] using hx
      subst he
      have hstep : parseGo (InputElem.graph labels true :: t) i ws acc
          = parseGo t (i + 1) ws (acc ++ [inv_dict labels]) := by
        simp [parseGo]
      rw [hstep, ih (i + 1) ws (acc ++ [inv_dict labels]) ht]
      simp [List.filter_cons, isGoodElem, emptyIdxFrom, isEmptyElem,
        summaryOf, List.append_assoc]
    | other => simp [isBadElem, isEmptyElem, isGoodElem] at hx

theorem parseGo_cons_not_bad {x : InputElem} (hx : isBadElem x = false)
    (t : List InputElem) (i : Nat) (ws : List String)
    (acc : List InvDict) :
    ∃ ws2 acc2, parseGo (x :: t) i ws acc = parseGo t (i + 1) ws2 acc2 := by
  cases x with
  | iter items =>
    by_cases h0 : items.length = 0
    · exact ⟨ws ++ [warnMsg i], acc, by simp [parseGo, h0]⟩
    · have h23 : items.length = 2 ∨ items.length = 3 := by
        simp [isBadElem, isEmptyElem, isGoodElem, h0] at hx
        tauto
      refine ⟨ws, acc ++ [inv_dict (items.getD 1 [])], ?_⟩
      rcases h23 with h2 | h3
      · simp [parseGo, h2]
      · simp [parseGo, h3]
  | graph labels exact =>
    have he : exact = true := by
      simpa [isBadElem, isEmptyElem, isGoodElem] using hx
    subst he
    exact ⟨ws, acc ++ [inv_dict labels], by simp [parseGo]⟩
  | other => simp [isBadElem, isEmptyElem, isGoodElem] at hx

theorem parseGo_bad :
    ∀ (X : List InputElem) (i : Nat) (ws : List String)
      (acc : List InvDict), (∃ x ∈ X, isBadElem x = true) →
      parseGo X i ws acc = .error (.valueError malformedMsg) := by
  intro X
  induction X with
  | nil =>
    intro i ws acc h
    rcases h with ⟨x, hx, -⟩
    cases hx
  | cons x t ih =>
    intro i ws acc h
    by_cases hx : isBadElem x = true
    · cases x with
      | iter items =>
        have hx' : ((items.length == 0)
            || (items.length == 2 || items.length == 3)) = false := by
          simpa [isBadElem, isEmptyElem, isGoodElem] using hx
        have hlen : ¬(items.length = 0 ∨ items.length = 2 ∨
            items.length = 3) := by
          simp only [Bool.or_eq_false_iff, beq_eq_false_iff_ne] at hx'
          rintro (h0 | h2 | h3)
          · exact hx'.1 h0
          · exact hx'.2.1 h2
          · exact hx'.2.2 h3
        simp only [parseGo]
        rw [if_neg hlen]
      | graph labels exact =>
        have he : exact = false := by
          simpa [isBadElem, isEmptyElem, isGoodElem] using hx
        subst he
        simp [parseGo]
      | other => simp [parseGo]
    · have hxf : isBadElem x = false := by
        simpa using hx
      rcases h with ⟨y, hy, hby⟩
      rcases List.mem_cons.mp hy with rfl | hyt
      · exact absurd hby hx
      · rcases parseGo_cons_not_bad hxf t i ws acc with ⟨ws2, acc2, hstep⟩
        rw [hstep]
        exact ih (i + 1) ws2 acc2 ⟨y, hyt, hby⟩

/-- Successful parses, fully characterized: when no element is malformed
and at least one is accepted, `parse_input` returns the warnings naming
the indices of the skipped empty elements and the summaries of the
accepted elements, in order. -/
theorem parse_ok (X : List InputElem)
    (hb : ∀ x ∈ X, isBadElem x = false)
    (hg : ∃ x ∈ X, isGoodElem x = true) :
    parse_input X
      = .ok ((emptyIdxFrom X 0).map warnMsg,
          (X.filter isGoodElem).map summaryOf) := by
  rw [parse_input, parseGo_ok X 0 [] [] hb]
  rcases hg with ⟨x, hx, hgx⟩
  have hmem : x ∈ X.filter isGoodElem := List.mem_filter.mpr ⟨hx, hgx⟩
  have hne : (X.filter isGoodElem).map summaryOf ≠ [] := by
    intro hnil
    rw [List.map_eq_nil_iff] at hnil
    exact absurd (hnil ▸ hmem) (List.not_mem_nil x)
  have hlen : ((X.filter isGoodElem).map summaryOf).length ≠ 0 := by
    intro h0
    exact hne (List.length_eq_zero.mp h0)
  have hcond :
      ¬(([] : List InvDict)
          ++ (X.filter isGoodElem).map summaryOf).length = 0 := by
    simpa using hlen
  rw [if_neg hcond]
  simp

/- ### Claim C1 -/

/-- C1: for every pair of well-formed inverted-label dictionaries,
`pairwise_operation` returns the sum, over labels present in both
dictionaries, of the product of the two bucket sizes (`kernelSum`), and
this equals the reference double sum counting node pairs, one node from
each graph, whose labels are equal (`doubleSum`). -/
theorem C1_pairwise_operation_counts_matching_pairs (a b : InvDict)
    (ha : a.wf) (hb : b.wf) :
    pairwise_operation a b = kernelSum a b ∧
      pairwise_operation a b = doubleSum a b := by
  refine ⟨pairwise_eq_kernelSum ha.1 hb.1, ?_⟩
  rw [pairwise_eq_kernelSum ha.1 hb.1, doubleSum_eq_kernelSum ha.1 hb.1]

/-- Witness for C1 at the spec's worked example, whose score is `2`. -/
theorem C1_witness :
    exA.wf ∧ exB.wf ∧ pairwise_operation exA exB = 2 ∧
      (pairwise_operation exA exB = kernelSum exA exB ∧
        pairwise_operation exA exB = doubleSum exA exB) :=
  ⟨by decide, by decide, by decide,
    C1_pairwise_operation_counts_matching_pairs exA exB (by decide)
      (by decide)⟩

/- ### Claim C2 -/

/-- C2: `pairwise_operation` is commutative on well-formed dictionaries,
and the generator sum taken over the keys of either side gives the same
value, so the smaller-side iteration choice is performance-only. -/
theorem C2_pairwise_operation_comm (a b : InvDict) (ha : a.wf)
    (hb : b.wf) :
    pairwise_operation a b = pairwise_operation b a ∧
      score_over a b = score_over b a := by
  constructor
  · rw [pairwise_eq_kernelSum ha.1 hb.1, pairwise_eq_kernelSum hb.1 ha.1,
      kernelSum_comm]
  · rw [score_over_eq_kernelSum b ha.1, score_over_eq_kernelSum a hb.1,
      kernelSum_comm]

/-- Witness for C2 at the spec's worked example. -/
theorem C2_witness :
    exA.wf ∧ exB.wf ∧
      (pairwise_operation exA exB = pairwise_operation exB exA ∧
        score_over exA exB = score_over exB exA) :=
  ⟨by decide, by decide,
    C2_pairwise_operation_comm exA exB (by decide) (by decide)⟩

/- ### Claim C6 -/

/-- C6: the self-similarity of a well-formed dictionary is nonnegative and
equals the sum over all labels of the squared bucket size. -/
theorem C6_self_similarity (a : InvDict) (ha : a.wf) :
    0 ≤ pairwise_operation a a ∧
      pairwise_operation a a = selfSquareSum a := by
  refine ⟨Nat.zero_le _, ?_⟩
  have h1 := entriesSum_eq_keySum a ha.1
  have h2 : (a.entries.map fun p => p.2.length * sizeAt a p.1).sum
      = selfSquareSum a := by
    unfold selfSquareSum
    congr 1
    exact List.map_congr_left fun p hp => by rw [sizeAt_of_mem ha.1 hp]
  rw [pairwise_eq_kernelSum ha.1 ha.1]
  unfold kernelSum
  rw [Finset.inter_self, ← h1, h2]

/-- Witness for C6 at the spec's worked example, where the value is
`2² + 1² = 5`. -/
theorem C6_witness :
    exA.wf ∧ pairwise_operation exA exA = 5 ∧
      (0 ≤ pairwise_operation exA exA ∧
        pairwise_operation exA exA = selfSquareSum exA) :=
  ⟨by decide, by decide, C6_self_similarity exA (by decide)⟩

/- ### Claim C10 -/

/-- C10: the pairwise score depends only on the key sets and the per-key
bucket sizes of the two summaries, not on the node identifiers stored in
the buckets. -/
theorem C10_score_ignores_node_ids (a a' b b' : InvDict)
    (ha : a.wf) (ha' : a'.wf) (hb : b.wf) (hb' : b'.wf)
    (hka : a.keyFinset = a'.keyFinset)
    (hsa : ∀ k, sizeAt a k = sizeAt a' k)
    (hkb : b.keyFinset = b'.keyFinset)
    (hsb : ∀ k, sizeAt b k = sizeAt b' k) :
    pairwise_operation a b = pairwise_operation a' b' := by
  rw [pairwise_eq_kernelSum ha.1 hb.1, pairwise_eq_kernelSum ha'.1 hb'.1]
  unfold kernelSum
  rw [← hka, ← hkb]
  exact Finset.sum_congr rfl fun k _ => by rw [hsa k, hsb k]

/-- Witness for C10: renaming all node identifiers in both worked-example
summaries leaves the score unchanged. -/
theorem C10_witness :
    exA.wf ∧ exA2.wf ∧ exB.wf ∧ exB2.wf ∧
      pairwise_operation exA exB = pairwise_operation exA2 exB2 :=
  ⟨by decide, by decide, by decide, by decide,
    C10_score_ignores_node_ids exA exA2 exB exB2 (by decide) (by decide)
      (by decide) (by decide) (by decide)
      (fun k => by
        simp only [sizeAt, InvDict.getD, InvDict.lookup, exA, exA2]
        rcases h1 : (("x" : String) == k) with _ | _ <;>
          rcases h2 : (("y" : String) == k) with _ | _ <;>
            simp [List.find?, h1, h2])
      (by decide)
      (fun k => by
        simp only [sizeAt, InvDict.getD, InvDict.lookup, exB, exB2]
        rcases h1 : (("x" : String) == k) with _ | _ <;>
          rcases h2 : (("z" : String) == k) with _ | _ <;>
            simp [List.find?, h1, h2])⟩

/- ### Claim C3 -/

/-- C3 counterexample: a malformed element is rejected with a `ValueError`,
but the error does not identify the offending index: the element
`{0:'a'}` (an iterable of length 1) raises the very same error value at
index 0 and at index 1 (behind a valid 2-tuple), and the fixed message
contains no digit at all, so in particular it does not cite index 0. -/
theorem C3_counterexample :
    parse_input [InputElem.iter [[(0, "a")]]]
        = .error (.valueError malformedMsg) ∧
      parse_input [InputElem.iter [[], [(0, "a")]],
          InputElem.iter [[(0, "a")]]]
        = .error (.valueError malformedMsg) ∧
      malformedMsg.data.any Char.isDigit = false :=
  ⟨rfl, rfl, by decide⟩

/-- C3 (amended): any input containing an element that is neither an
iterable of length 0, 2 or 3 nor an exact `Graph` instance makes
`parse_input` raise the malformed-element `ValueError` (whose message is
fixed, identifying no index); in particular `[ {0:'a'} ]` raises it. -/
theorem C3_malformed_error (X : List InputElem)
    (h : ∃ x ∈ X, isBadElem x = true) :
    parse_input X = .error (.valueError malformedMsg) :=
  parseGo_bad X 0 [] [] h

/-- Witness for C3 at the input `[ {0:'a'} ]`, a length-1 iterable. -/
theorem C3_witness :
    (∃ x ∈ [InputElem.iter [[(0, "a")]]], isBadElem x = true) ∧
      parse_input [InputElem.iter [[(0, "a")]]]
        = .error (.valueError malformedMsg) :=
  ⟨by decide, C3_malformed_error [InputElem.iter [[(0, "a")]]] (by decide)⟩


/- ### Claim C4 -/

/-- C4: when no element is malformed and at least one is accepted, each
length-0 iterable element is skipped: it contributes exactly one warning
naming its index and nothing to the output, and no error is raised; the
output lists the summaries of the accepted elements only. -/
theorem C4_empty_elements_skipped (X : List InputElem)
    (hb : ∀ x ∈ X, isBadElem x = false)
    (hg : ∃ x ∈ X, isGoodElem x = true) :
    parse_input X
      = .ok ((emptyIdxFrom X 0).map warnMsg,
          (X.filter isGoodElem).map summaryOf) :=
  parse_ok X hb hg

/-- Witness for C4 at the example `[(), (g1, {0:'a'}), ()]`: one summary,
two warnings naming indices 0 and 2, no error. -/
theorem C4_witness :
    (∀ x ∈ [InputElem.iter [], InputElem.iter [[], [(0, "a")]],
        InputElem.iter []], isBadElem x = false) ∧
      (∃ x ∈ [InputElem.iter [], InputElem.iter [[], [(0, "a")]],
        InputElem.iter []], isGoodElem x = true) ∧
      parse_input [InputElem.iter [], InputElem.iter [[], [(0, "a")]],
          InputElem.iter []]
        = .ok ([warnMsg 0, warnMsg 2], [inv_dict [(0, "a")]]) ∧
      warnMsg 0 = "Ignoring empty element on index: 0" ∧
      warnMsg 2 = "Ignoring empty element on index: 2" :=
  ⟨by decide, by decide, by
    rw [C4_empty_elements_skipped _ (by decide) (by decide)]
    rfl, by decide, by decide⟩

/- ### Claim C5 -/

/-- C5: when every element of the input is a length-0 iterable (including
the case of an empty input), the parsed sequence is empty and
`parse_input` raises the empty-input `ValueError` for the whole call. -/
theorem C5_all_empty_raises (X : List InputElem)
    (h : ∀ x ∈ X, isEmptyElem x = true) :
    parse_input X = .error (.valueError emptyMsg) := by
  have hb : ∀ x ∈ X, isBadElem x = false := fun x hx => by
    simp [isBadElem, h x hx]
  rw [parse_input, parseGo_ok X 0 [] [] hb]
  have hfilter : X.filter isGoodElem = [] := by
    rw [List.filter_eq_nil_iff]
    intro x hx
    simp [isGoodElem_eq_false_of_empty (h x hx)]
  rw [hfilter]
  simp

/-- Witness for C5 at the input `[(), ()]`. -/
theorem C5_witness :
    (∀ x ∈ [InputElem.iter [], InputElem.iter []],
        isEmptyElem x = true) ∧
      parse_input [InputElem.iter [], InputElem.iter []]
        = .error (.valueError emptyMsg) :=
  ⟨by decide,
    C5_all_empty_raises [InputElem.iter [], InputElem.iter []] (by decide)⟩

/- ### Claim C7 -/

/-- C7: a pre-built graph object is accepted without the tuple form: in
any input without malformed elements that contains an exact `Graph`
instance, `parse_input` succeeds (so tuples and graph objects may be
mixed) and the graph object contributes the summary obtained by inverting
its `get_labels(purpose="any")` mapping. -/
theorem C7_graph_objects_accepted (X : List InputElem) (lm : LabelMap)
    (hb : ∀ x ∈ X, isBadElem x = false)
    (hg : InputElem.graph lm true ∈ X) :
    parse_input X
        = .ok ((emptyIdxFrom X 0).map warnMsg,
            (X.filter isGoodElem).map summaryOf) ∧
      inv_dict lm ∈ (X.filter isGoodElem).map summaryOf := by
  have hgood : isGoodElem (InputElem.graph lm true) = true := rfl
  refine ⟨parse_ok X hb ⟨_, hg, hgood⟩, ?_⟩
  exact List.mem_map_of_mem summaryOf (List.mem_filter.mpr ⟨hg, hgood⟩)

/-- Witness for C7 at a mixed input: a graph object followed by a raw
2-tuple, parsed together with no error. -/
theorem C7_witness :
    (∀ x ∈ [InputElem.graph [(0, "a")] true,
        InputElem.iter [[], [(1, "b")]]], isBadElem x = false) ∧
      InputElem.graph [(0, "a")] true
          ∈ [InputElem.graph [(0, "a")] true,
              InputElem.iter [[], [(1, "b")]]] ∧
      (parse_input [InputElem.graph [(0, "a")] true,
            InputElem.iter [[], [(1, "b")]]]
          = .ok ([], [inv_dict [(0, "a")], inv_dict [(1, "b")]]) ∧
        inv_dict [(0, "a")]
          ∈ [inv_dict [(0, "a")], inv_dict [(1, "b")]]) :=
  ⟨by decide, by decide, by
    have := C7_graph_objects_accepted
      [InputElem.graph [(0, "a")] true, InputElem.iter [[], [(1, "b")]]]
      [(0, "a")] (by decide) (by decide)
    exact ⟨by rw [this.1]; rfl, by
      have h2 := this.2
      simp only [List.filter_cons, List.map_cons] at h2
      exact h2⟩⟩

/- ### Claim C9 -/

/-- C9: `parse_input` accepts a non-iterable graph object only when its
type is exactly `Graph`: an instance of a proper subclass is rejected with
the malformed-element `ValueError` instead of being handled through its
label-lookup capability, while an exact `Graph` instance with the same
labels is accepted. -/
theorem C9_subclass_rejected (X : List InputElem) (lm : LabelMap)
    (h : InputElem.graph lm false ∈ X) :
    parse_input X = .error (.valueError malformedMsg) ∧
      parse_input [InputElem.graph lm true] = .ok ([], [inv_dict lm]) := by
  constructor
  · exact parseGo_bad X 0 [] [] ⟨_, h, rfl⟩
  · simp [parse_input, parseGo, emptyIdxFrom]

/-- Witness for C9: a subclass instance carrying the labels `{0: 'a'}` is
rejected while the exact `Graph` instance is accepted. -/
theorem C9_witness :
    InputElem.graph [(0, "a")] false ∈ [InputElem.graph [(0, "a")] false] ∧
      (parse_input [InputElem.graph [(0, "a")] false]
          = .error (.valueError malformedMsg) ∧
        parse_input [InputElem.graph [(0, "a")] true]
          = .ok ([], [inv_dict [(0, "a")]])) :=
  ⟨by decide,
    C9_subclass_rejected [InputElem.graph [(0, "a")] false] [(0, "a")]
      (by decide)⟩

/- ### Claim C8 -/

theorem repK_eq : repK = !![(5 : ℝ), 2; 2, 2] := by
  ext i j
  fin_cases i <;> fin_cases j <;>
    simp [repK, fit_transform, Matrix.map_apply, Matrix.of_apply,
      show pairwise_operation exA exA = 5 from by decide,
      show pairwise_operation exA exB = 2 from by decide,
      show pairwise_operation exB exA = 2 from by decide,
      show pairwise_operation exB exB = 2 from by decide]

theorem repK_herm : repK.IsHermitian := by
  show repK.conjTranspose = repK
  rw [repK_eq]
  ext i j
  fin_cases i <;> fin_cases j <;>
    simp [Matrix.conjTranspose_apply]

theorem repK_psd : repK.PosSemidef := by
  refine ⟨repK_herm, fun x => ?_⟩
  rw [repK_eq]
  simp [Matrix.dotProduct, Matrix.mulVec, Fin.sum_univ_two]
  nlinarith [sq_nonneg (2 * x 0 + x 1), sq_nonneg (x 0), sq_nonneg (x 1)]

/-- C8: for the representative non-degenerate collection of the spec's
worked example, `parse_input` yields the two summaries and the Gram matrix
returned by the (spec-modelled) `fit_transform`, viewed over `ℝ`, has
every eigenvalue strictly above `-1e-6` (indeed nonnegative: the matrix is
positive semidefinite). -/
theorem C8_fit_transform_psd_acceptance :
    parse_input repX = .ok ([], [exA, exB]) ∧
      ∀ i : Fin 2, -(1 / 1000000 : ℝ) < repK_herm.eigenvalues i := by
  refine ⟨rfl, fun i => ?_⟩
  have h := repK_psd.eigenvalues_nonneg i
  calc -(1 / 1000000 : ℝ) < 0 := by norm_num
    _ ≤ _ := h

end GrakelWL
